import Mathlib

/-!
Shallow embedding of the NepseBot trigger-order monitoring pipeline.

The definitions below are translated from the repository's source:
  * `OrderMonitorService` (order monitor: processOrder, executeOrder,
    monitorOrders, calculateTargetPrice, isPriceTargetReached, the
    per-order db writes),
  * `MarketDataService.fetchLatestData` (both the retry revision and the
    cache-fallback revision present in the repository),
  * `WebSocketService` (subscription registry and broadcasts),
  * the `orderFormSchema` zod validator from shared/schema.ts,
  * the POST /api/trigger-orders and POST /api/trigger-orders/:id/cancel
    route handlers.

Prices are modelled as rationals, timestamps as naturals, database rows as
records, and each observable side effect (database field write, websocket
broadcast, executor invocation) as an explicit event.
-/

namespace NepseBot

/-- Trigger lifecycle statuses.  The first six come from the
`TRIGGER_STATUS` constant in shared/schema.ts; `EXECUTION_FAILED` is the
raw string written by `OrderMonitorService.executeOrder` on executor
failure. -/
inductive TriggerStatus
  | PENDING
  | MONITORING
  | TRIGGERED
  | EXECUTED
  | FAILED
  | CANCELLED
  | EXECUTION_FAILED
  deriving DecidableEq, Repr

/-- A row of the `orders` table (shared/schema.ts), restricted to the
fields the monitor reads or writes.  `none` models SQL NULL. -/
structure Order where
  id : Nat
  symbol : String
  quantity : Int
  order_type : String
  trigger_price_percent : Rat
  is_trigger_order : Bool
  base_price : Option Rat
  target_price : Option Rat
  trigger_status : TriggerStatus
  last_checked_at : Option Nat
  triggered_at : Option Nat
  executed_at : Option Nat
  execution_price : Option Rat
  tms_order_id : Option String
  tms_status : Option String
  deriving DecidableEq, Repr

/-- One market observation as returned by the feed
(`StockData` in shared/schema.ts): symbol, last price, percent change,
volume. -/
structure StockData where
  s : String
  lp : Rat
  c : Rat
  q : Rat
  deriving DecidableEq, Repr

/-- Result returned by an executor (`TMSService.processOrder` /
`NepseTMSService.executeOrder`). -/
structure ExecResult where
  success : Bool
  order_id : String
  status : String
  deriving DecidableEq, Repr

/-- Which executor implementation `OrderMonitorService.executeOrder`
selected. -/
inductive ExecKind
  | nepseTMS
  | tmsAPI
  deriving DecidableEq, Repr

/-- An observable side effect of the monitor: a database field write, a
websocket broadcast, or an executor invocation. -/
inductive Event
  | dbLastChecked (orderId : Nat) (now : Nat)
  | dbBasePrice (orderId : Nat) (price : Rat)
  | dbTargetPrice (orderId : Nat) (price : Rat)
  | dbStatus (orderId : Nat) (status : TriggerStatus)
  | dbTriggeredAt (orderId : Nat) (now : Nat)
  | dbExecutionUpdate (orderId : Nat) (price : Rat) (now : Nat)
  | wsPriceUpdate (stock : StockData)
  | wsOrderUpdate (orderId : Nat) (status : TriggerStatus)
  | wsTriggerNotificationSent (orderId : Nat) (price : Rat)
  | execCall (kind : ExecKind) (orderId : Nat) (price : Rat)
  deriving DecidableEq, Repr

/-- Embeds `OrderMonitorService.calculateTargetPrice`: Buy targets
`base * (1 + pct/100)`, anything else (the `else` branch, i.e. Sell)
targets `base * (1 - pct/100)`. -/
def calculateTargetPrice (basePrice percentage : Rat) (orderType : String) : Rat :=
  if orderType = "Buy" then
    basePrice * (1 + percentage / 100)
  else
    basePrice * (1 - percentage / 100)

/-- Embeds `OrderMonitorService.isPriceTargetReached`: Buy fires at or above the
target, the `else` branch (Sell) fires at or below it. -/
def isPriceTargetReached (currentPrice targetPrice : Rat) (orderType : String) : Bool :=
  if orderType = "Buy" then
    decide (currentPrice ≥ targetPrice)
  else
    decide (currentPrice ≤ targetPrice)

/-- The executor-selection guard in `OrderMonitorService.executeOrder`:
base and target present and within 0.01 of each other, or the trigger
percent is exactly 0. -/
def isBasePriceEqualsTargetPrice (o : Order) : Bool :=
  (match o.base_price, o.target_price with
   | some b, some t => decide (|b - t| < 1 / 100)
   | _, _ => false)
  || decide (o.trigger_price_percent = 0)

/-- Embeds `OrderMonitorService.executeOrder`: select NepseTMSService when base
and target coincide (or pct = 0), otherwise TMSService; on success write
the execution fields plus status EXECUTED in one update, on failure write
status EXECUTION_FAILED. -/
def executeOrder (o : Order) (currentPrice : Rat) (now : Nat) (res : ExecResult) :
    Order × List Event :=
  let kind := if isBasePriceEqualsTargetPrice o then ExecKind.nepseTMS else ExecKind.tmsAPI
  if res.success then
    ({ o with
        executed_at := some now
        execution_price := some currentPrice
        tms_order_id := some res.order_id
        tms_status := some res.status
        trigger_status := TriggerStatus.EXECUTED },
     [Event.execCall kind o.id currentPrice, Event.dbExecutionUpdate o.id currentPrice now])
  else
    ({ o with trigger_status := TriggerStatus.EXECUTION_FAILED },
     [Event.execCall kind o.id currentPrice,
      Event.dbStatus o.id TriggerStatus.EXECUTION_FAILED])

/-- The body of `OrderMonitorService.processOrder` (the code inside its
try block): update last-checked; if base price is unset, set base and
target and move to MONITORING; otherwise evaluate the trigger condition
(the stored target, read back as 0 when NULL, mirroring the JS `>=`
coercion of null), broadcast, and on a hit write TRIGGERED, stamp
triggered-at, notify, and execute. -/
def processOrder (o : Order) (stock : StockData) (now : Nat) (res : ExecResult) :
    Order × List Event :=
  let currentPrice := stock.lp
  let o1 : Order := { o with last_checked_at := some now }
  let evChecked := Event.dbLastChecked o.id now
  match o1.base_price with
  | none =>
    let o2 : Order := { o1 with base_price := some currentPrice }
    let (o3, evsTarget) :=
      match o2.target_price with
      | none =>
        let tp := calculateTargetPrice currentPrice o2.trigger_price_percent o2.order_type
        (({ o2 with target_price := some tp } : Order), [Event.dbTargetPrice o.id tp])
      | some _ => (o2, [])
    let o4 : Order := { o3 with trigger_status := TriggerStatus.MONITORING }
    (o4, [evChecked, Event.dbBasePrice o.id currentPrice] ++ evsTarget
          ++ [Event.dbStatus o.id TriggerStatus.MONITORING,
              Event.wsOrderUpdate o.id TriggerStatus.MONITORING])
  | some _ =>
    let targetReached :=
      isPriceTargetReached currentPrice (o1.target_price.getD 0) o1.order_type
    if !targetReached then
      (o1, [evChecked, Event.wsPriceUpdate stock,
            Event.wsOrderUpdate o.id o1.trigger_status])
    else
      let o2 : Order := { o1 with
        trigger_status := TriggerStatus.TRIGGERED
        triggered_at := some now }
      let (o3, evsExec) := executeOrder o2 currentPrice now res
      (o3, [evChecked, Event.wsPriceUpdate stock,
            Event.dbStatus o.id TriggerStatus.TRIGGERED,
            Event.dbTriggeredAt o.id now,
            Event.wsTriggerNotificationSent o.id currentPrice] ++ evsExec)

/-- Embeds `processOrder` together with its catch clause: a fault while
evaluating the order is caught at the per-order boundary, the order is
written FAILED, and the failure is broadcast.  The fault is modelled as
raised at the first operation of the try block. -/
def processOrderRun (fault : Bool) (o : Order) (stock : StockData) (now : Nat)
    (res : ExecResult) : Order × List Event :=
  if fault then
    (({ o with trigger_status := TriggerStatus.FAILED } : Order),
     [Event.dbStatus o.id TriggerStatus.FAILED,
      Event.wsOrderUpdate o.id TriggerStatus.FAILED])
  else
    processOrder o stock now res

/-- The statuses `getPendingTriggerOrders` enumerates (the monitor's
database filter): trigger orders in PENDING or MONITORING. -/
def isActiveStatus (s : TriggerStatus) : Bool :=
  s = TriggerStatus.PENDING || s = TriggerStatus.MONITORING

/-- Whether the monitor's enumeration query would load this order
(`OrderMonitorService.getPendingTriggerOrders`). -/
def isMonitoredOrder (o : Order) : Bool :=
  o.is_trigger_order && isActiveStatus o.trigger_status

/-- Statuses after which the pipeline performs no further transition. -/
def isTerminalStatus (s : TriggerStatus) : Bool :=
  s = TriggerStatus.EXECUTED || s = TriggerStatus.FAILED ||
  s = TriggerStatus.CANCELLED || s = TriggerStatus.EXECUTION_FAILED

/-- The lifecycle order on statuses: reflexive, PENDING below everything,
MONITORING below everything except PENDING, TRIGGERED below the three
post-trigger outcomes, terminal statuses below only themselves. -/
def statusLe (s t : TriggerStatus) : Bool :=
  if s = t then true
  else
    match s, t with
    | TriggerStatus.PENDING, _ => true
    | TriggerStatus.MONITORING, TriggerStatus.PENDING => false
    | TriggerStatus.MONITORING, _ => true
    | TriggerStatus.TRIGGERED, TriggerStatus.EXECUTED => true
    | TriggerStatus.TRIGGERED, TriggerStatus.FAILED => true
    | TriggerStatus.TRIGGERED, TriggerStatus.EXECUTION_FAILED => true
    | _, _ => false

/-- The POST /api/trigger-orders/:id/cancel handler: cancel only a
trigger order currently PENDING or MONITORING; otherwise answer 400 and
write nothing. -/
def cancelTriggerOrder (o : Order) : Order :=
  if o.is_trigger_order && isActiveStatus o.trigger_status then
    { o with trigger_status := TriggerStatus.CANCELLED }
  else
    o

/-- The operations that can touch a stored order after creation: one
monitor tick evaluating it (with the quote found for its symbol, the
current time, whether evaluation faults, and the executor's answer), a
tick that found no quote for its symbol, or a cancellation request. -/
inductive Op
  | tick (stock : StockData) (now : Nat) (fault : Bool) (res : ExecResult)
  | tickNoQuote
  | cancel

/-- Apply one operation to a stored order.  A tick evaluates the order
only when the monitor's enumeration filter selects it; a tick with no
quote for the symbol skips the order; cancellation goes through the
route handler's guards. -/
def applyOp (op : Op) (o : Order) : Order :=
  match op with
  | Op.tick stock now fault res =>
    if isMonitoredOrder o then (processOrderRun fault o stock now res).1 else o
  | Op.tickNoQuote => o
  | Op.cancel => cancelTriggerOrder o

/-- The events a tick emits for one stored order (empty when the
enumeration filter does not select it). -/
def tickEvents (o : Order) (stock : StockData) (now : Nat) (fault : Bool)
    (res : ExecResult) : List Event :=
  if isMonitoredOrder o then (processOrderRun fault o stock now res).2 else []

/-- The order-form input validated by `orderFormSchema`
(shared/schema.ts): symbol, positive integer quantity, Buy or Sell,
strictly positive trigger percent, non-empty TMS credentials and broker
number. -/
structure OrderForm where
  symbol : String
  quantity : Int
  order_type : String
  trigger_price_percent : Rat
  tms_username : String
  tms_password : String
  broker_number : String
  deriving DecidableEq, Repr

/-- The `orderFormSchema` zod validator: `z.number().positive()` on the
trigger percent rejects zero ("Trigger price must be greater than 0%"). -/
def orderFormValid (f : OrderForm) : Bool :=
  decide (1 ≤ f.symbol.length) &&
  decide (0 < f.quantity) &&
  (f.order_type = "Buy" || f.order_type = "Sell") &&
  decide (0 < f.trigger_price_percent) &&
  decide (1 ≤ f.tms_username.length) &&
  decide (1 ≤ f.tms_password.length) &&
  decide (1 ≤ f.broker_number.length)

/-- The POST /api/trigger-orders handler's stored row: base price is the
current quote, target price is computed from it by side and percent, and
the row is created as a trigger order in status PENDING. -/
def createTriggerOrder (f : OrderForm) (currentPrice : Rat) (id : Nat) : Order :=
  { id := id
    symbol := f.symbol
    quantity := f.quantity
    order_type := f.order_type
    trigger_price_percent := f.trigger_price_percent
    is_trigger_order := true
    base_price := some currentPrice
    target_price := some (if f.order_type = "Buy" then
        currentPrice * (1 + f.trigger_price_percent / 100)
      else
        currentPrice * (1 - f.trigger_price_percent / 100))
    trigger_status := TriggerStatus.PENDING
    last_checked_at := none
    triggered_at := none
    executed_at := none
    execution_price := none
    tms_order_id := none
    tms_status := none }

/-- Association-list lookup, modelling JS `Map.get`. -/
def alGet {α β : Type} [DecidableEq α] : List (α × β) → α → Option β
  | [], _ => none
  | (k, v) :: rest, k' => if k = k' then some v else alGet rest k'

/-- Association-list insert-or-replace, modelling JS `Map.set`. -/
def alSet {α β : Type} [DecidableEq α] : List (α × β) → α → β → List (α × β)
  | [], k, v => [(k, v)]
  | (k', v') :: rest, k, v =>
    if k' = k then (k, v) :: rest else (k', v') :: alSet rest k v

/-- The mutable fields of `MarketDataService`: the per-symbol quote
cache, the time of the last fetch, and the minimum refresh interval. -/
structure MarketState where
  cache : List (String × StockData)
  lastFetchTime : Nat
  fetchInterval : Nat
  deriving DecidableEq, Repr

/-- What the upstream feed call produced for this tick: a parsed
response body, a body without the expected `stock.detail` shape, or a
transport/HTTP failure on every retry attempt. -/
inductive FetchOutcome
  | ok (detail : List StockData)
  | badFormat
  | netFail

/-- Embeds `MarketDataService.getStocksFromCache`: look each requested symbol up
in the cache and drop the misses. -/
def getStocksFromCache (cache : List (String × StockData)) (symbols : List String) :
    List StockData :=
  symbols.filterMap (fun sym => alGet cache sym)

/-- Embeds `MarketDataService.processMarketData`: with no requested symbols
return every stock, otherwise keep the stocks whose symbol matches a
requested one case-insensitively. -/
def processMarketData (detail : List StockData) (symbols : List String) :
    List StockData :=
  if symbols = [] then detail
  else
    detail.filter (fun item => (symbols.map String.toUpper).contains item.s.toUpper)

/-- Embeds `MarketDataService.updateCache`: overwrite the cache entry of every
returned stock. -/
def updateCache (cache : List (String × StockData)) (stocks : List StockData) :
    List (String × StockData) :=
  stocks.foldl (fun c st => alSet c st.s st) cache

/-- Embeds `MarketDataService.fetchLatestData`, the revision with
`fetchWithRetry` (the one importing `log` from vite): empty request
short-circuits; a recent fetch is served from cache; a fetch that fails
every retry, or a malformed body, is answered with a fabricated mock
quote (price 1000, change 0, volume 1000) per requested symbol;
`lastFetchTime` advances only once the retries succeed. -/
def fetchLatestData (st : MarketState) (now : Nat) (symbols : List String)
    (outcome : FetchOutcome) : MarketState × List StockData :=
  if symbols = [] then (st, [])
  else if now - st.lastFetchTime < st.fetchInterval then
    (st, getStocksFromCache st.cache symbols)
  else
    match outcome with
    | FetchOutcome.netFail =>
      (st, symbols.map (fun sym => ⟨sym, 1000, 0, 1000⟩))
    | FetchOutcome.badFormat =>
      ({ st with lastFetchTime := now }, symbols.map (fun sym => ⟨sym, 1000, 0, 1000⟩))
    | FetchOutcome.ok detail =>
      let stocksData := processMarketData detail symbols
      ({ st with lastFetchTime := now, cache := updateCache st.cache stocksData },
       stocksData)

/-- The other revision of `MarketDataService.fetchLatestData` in the
repository (the one without retry, concatenated after db.ts):
`lastFetchTime` advances before the fetch, and any failure falls back to
whatever the cache holds for the requested symbols. -/
def fetchLatestDataCacheFallback (st : MarketState) (now : Nat) (symbols : List String)
    (outcome : FetchOutcome) : MarketState × List StockData :=
  if now - st.lastFetchTime < st.fetchInterval then
    (st, getStocksFromCache st.cache symbols)
  else
    let st1 : MarketState := { st with lastFetchTime := now }
    match outcome with
    | FetchOutcome.netFail => (st1, getStocksFromCache st1.cache symbols)
    | FetchOutcome.badFormat => (st1, getStocksFromCache st1.cache symbols)
    | FetchOutcome.ok detail =>
      let stocksData := processMarketData detail symbols
      ({ st1 with cache := updateCache st1.cache stocksData }, stocksData)

/-- The quote lookup inside `monitorOrders`'s loop: the first fetched
stock whose symbol matches the order's, case-insensitively. -/
def findStockData (market : List StockData) (symbol : String) : Option StockData :=
  market.find? (fun d => d.s.toUpper = symbol.toUpper)

/-- The `for` loop of `OrderMonitorService.monitorOrders`: evaluate the
enumerated orders one at a time, skipping an order with no quote, and
collect the per-order results and events in order. -/
def runOrdersLoop (pending : List Order) (market : List StockData) (now : Nat)
    (fault : Nat → Bool) (execRes : Nat → ExecResult) : List Order × List Event :=
  match pending with
  | [] => ([], [])
  | o :: rest =>
    let tail := runOrdersLoop rest market now fault execRes
    match findStockData market o.symbol with
    | none => (o :: tail.1, tail.2)
    | some sd =>
      let head := processOrderRun (fault o.id) o sd now (execRes o.id)
      (head.1 :: tail.1, head.2 ++ tail.2)

/-- Embeds `OrderMonitorService.monitorOrders` for one tick: enumerate the
active trigger orders, return untouched when there are none or the fetch
produced nothing, otherwise run the per-order loop. -/
def monitorOrders (dbOrders : List Order) (market : List StockData) (now : Nat)
    (fault : Nat → Bool) (execRes : Nat → ExecResult) : List Order × List Event :=
  let pending := dbOrders.filter isMonitoredOrder
  if pending.isEmpty then (pending, [])
  else if market.isEmpty then (pending, [])
  else runOrdersLoop pending market now fault execRes

/-- Add an element to a JS `Set` modelled as a duplicate-free list:
a no-op when already present, an append otherwise. -/
def setAdd {α : Type} [DecidableEq α] (s : List α) (a : α) : List α :=
  if a ∈ s then s else s ++ [a]

/-- The state of `WebSocketService`: per-client subscription tags, the
symbol-topic registry, and the order-topic registry.  Clients are
identified by numbers. -/
structure WSState where
  clients : List (Nat × List String)
  symbolSubscribers : List (String × List Nat)
  orderSubscribers : List (Nat × List Nat)
  deriving DecidableEq, Repr

/-- The trigger-notification payload built by
`broadcastTriggerNotification`. -/
structure TriggerPayload where
  orderId : Nat
  symbol : String
  orderType : String
  quantity : Int
  targetPrice : Option Rat
  currentPrice : Rat
  status : TriggerStatus
  deriving DecidableEq, Repr

/-- Embeds `WebSocketService.broadcast`: send the message to each client of the
set whose connection is open. -/
def broadcast {μ : Type} (isOpen : Nat → Bool) (clients : List Nat) (msg : μ) :
    List (Nat × μ) :=
  (clients.filter isOpen).map (fun c => (c, msg))

/-- Embeds `WebSocketService.handleSymbolSubscription`: reject an empty symbol;
otherwise create the topic's subscriber set if absent, add the client to
it, and record the `symbol:<SYMBOL>` tag under the client. -/
def handleSymbolSubscription (st : WSState) (ws : Nat) (symbol : String) : WSState :=
  if symbol = "" then st
  else
    let subs := (alGet st.symbolSubscribers symbol).getD []
    { st with
        symbolSubscribers := alSet st.symbolSubscribers symbol (setAdd subs ws)
        clients := alSet st.clients ws
          (setAdd ((alGet st.clients ws).getD []) ("symbol:" ++ symbol)) }

/-- Embeds `WebSocketService.handleOrderSubscription`: reject order id 0 (the
falsy guard `!orderId`); otherwise create the topic's subscriber set if
absent, add the client, and record the `order:<ID>` tag. -/
def handleOrderSubscription (st : WSState) (ws : Nat) (orderId : Nat) : WSState :=
  if orderId = 0 then st
  else
    let subs := (alGet st.orderSubscribers orderId).getD []
    { st with
        orderSubscribers := alSet st.orderSubscribers orderId (setAdd subs ws)
        clients := alSet st.clients ws
          (setAdd ((alGet st.clients ws).getD []) ("order:" ++ toString orderId)) }

/-- Embeds `WebSocketService.broadcastTriggerNotification`: return early when
the order-topic registry has no entry for the order; otherwise send the
payload to the order's subscribers, and then also to the symbol's
subscribers when that topic exists.  This is the payload it builds. -/
def triggerNotificationPayload (o : Order) (currentPrice : Rat) : TriggerPayload :=
  { orderId := o.id
    symbol := o.symbol
    orderType := o.order_type
    quantity := o.quantity
    targetPrice := o.target_price
    currentPrice := currentPrice
    status := o.trigger_status }

/-- Embeds `WebSocketService.broadcastTriggerNotification`: return early when
the order-topic registry has no entry for the order; otherwise send the
payload to the order's subscribers, and then also to the symbol's
subscribers when that topic exists. -/
def broadcastTriggerNotification (st : WSState) (isOpen : Nat → Bool) (o : Order)
    (currentPrice : Rat) : List (Nat × TriggerPayload) :=
  match alGet st.orderSubscribers o.id with
  | none => []
  | some subs =>
    let msg : TriggerPayload := triggerNotificationPayload o currentPrice
    broadcast isOpen subs msg ++
      (match alGet st.symbolSubscribers o.symbol with
       | none => []
       | some symSubs => broadcast isOpen symSubs msg)

/-- Replay one database write event against the stored row.  Each
`db.update` in the monitor sets fields unconditionally (no compare on
the current status), so replaying a write is a plain field overwrite. -/
def applyDbEvent (o : Order) (e : Event) : Order :=
  match e with
  | Event.dbLastChecked _ now => { o with last_checked_at := some now }
  | Event.dbBasePrice _ p => { o with base_price := some p }
  | Event.dbTargetPrice _ p => { o with target_price := some p }
  | Event.dbStatus _ st => { o with trigger_status := st }
  | Event.dbTriggeredAt _ now => { o with triggered_at := some now }
  | Event.dbExecutionUpdate _ p now =>
    { o with
        executed_at := some now
        execution_price := some p
        trigger_status := TriggerStatus.EXECUTED }
  | _ => o

/-- The statuses a list of events writes to the database, in order. -/
def statusWrites (evs : List Event) : List TriggerStatus :=
  evs.filterMap (fun e =>
    match e with
    | Event.dbStatus _ st => some st
    | Event.dbExecutionUpdate _ _ _ => some TriggerStatus.EXECUTED
    | _ => none)

/-- How many times a list of events invokes an executor. -/
def countExecCalls (evs : List Event) : Nat :=
  evs.countP (fun e =>
    match e with
    | Event.execCall _ _ _ => true
    | _ => false)

/-- Progress of one scheduled `monitorOrders` run: not yet started,
holding the order snapshot its enumeration query read, or finished. -/
inductive TickPhase
  | idle
  | snapped (snapshot : Order)
  | finished
  deriving DecidableEq, Repr

/-- A one-order system under the free-running `setInterval` scheduler of
`OrderMonitorService.start`: the stored row, the number of executor
invocations so far, the statuses written so far, and the progress of two
interval-started ticks.  `start` fires `monitorOrders` every interval
without awaiting the previous run, so the second tick may begin while
the first is suspended at an await point. -/
structure SysState where
  dbOrder : Order
  execCalls : Nat
  statusLog : List TriggerStatus
  t1 : TickPhase
  t2 : TickPhase
  deriving DecidableEq, Repr

/-- Interleaved scheduler actions: a tick performing its enumeration
read (after which it suspends awaiting the quote fetch), a tick resuming
to evaluate its snapshot, or the cancel route handler running against
the current row. -/
inductive SysAction
  | read1
  | read2
  | eval1
  | eval2
  | cancelReq
  deriving DecidableEq, Repr

/-- Let a suspended tick resume: evaluate the snapshot its enumeration
query read (not the current row), replay its database writes over the
current row, and account its executor calls and status writes. -/
def finishTick (s : SysState) (snap : Order) (stock : StockData) (now : Nat)
    (res : ExecResult) : SysState :=
  let run := processOrderRun false snap stock now res
  { s with
      dbOrder := run.2.foldl applyDbEvent s.dbOrder
      execCalls := s.execCalls + countExecCalls run.2
      statusLog := s.statusLog ++ statusWrites run.2 }

/-- One interleaving step.  A read is enabled whenever that tick has not
started — `setInterval` imposes no re-entrancy guard — and snapshots the
row if the enumeration filter selects it.  An eval is enabled once that
tick holds a snapshot.  A cancel reads the current row and writes
CANCELLED when the route handler's guards pass. -/
def sysStep (stock : StockData) (now : Nat) (res : ExecResult) (s : SysState)
    (a : SysAction) : SysState :=
  match a with
  | SysAction.read1 =>
    match s.t1 with
    | TickPhase.idle =>
      if isMonitoredOrder s.dbOrder then { s with t1 := TickPhase.snapped s.dbOrder }
      else { s with t1 := TickPhase.finished }
    | _ => s
  | SysAction.read2 =>
    match s.t2 with
    | TickPhase.idle =>
      if isMonitoredOrder s.dbOrder then { s with t2 := TickPhase.snapped s.dbOrder }
      else { s with t2 := TickPhase.finished }
    | _ => s
  | SysAction.eval1 =>
    match s.t1 with
    | TickPhase.snapped snap =>
      { finishTick s snap stock now res with t1 := TickPhase.finished }
    | _ => s
  | SysAction.eval2 =>
    match s.t2 with
    | TickPhase.snapped snap =>
      { finishTick s snap stock now res with t2 := TickPhase.finished }
    | _ => s
  | SysAction.cancelReq =>
    if s.dbOrder.is_trigger_order && isActiveStatus s.dbOrder.trigger_status then
      { s with
          dbOrder := { s.dbOrder with trigger_status := TriggerStatus.CANCELLED }
          statusLog := s.statusLog ++ [TriggerStatus.CANCELLED] }
    else s

/-- Run a schedule of interleaved actions from an initial state. -/
def runSchedule (stock : StockData) (now : Nat) (res : ExecResult) (s : SysState)
    (actions : List SysAction) : SysState :=
  actions.foldl (sysStep stock now res) s

/-- The initial system state for a stored row: no executor calls, no
status writes, both interval-started ticks yet to run. -/
def initSys (o : Order) : SysState :=
  { dbOrder := o
    execCalls := 0
    statusLog := []
    t1 := TickPhase.idle
    t2 := TickPhase.idle }

/-! ### Helper lemmas about a single evaluation -/

lemma triggered_write_iff (o : Order) (stock : StockData) (now : Nat)
    (res : ExecResult) (b : Rat) (h : o.base_price = some b) :
    TriggerStatus.TRIGGERED ∈ statusWrites (processOrderRun false o stock now res).2
      ↔ isPriceTargetReached stock.lp (o.target_price.getD 0) o.order_type = true := by
  by_cases hr : isPriceTargetReached stock.lp (o.target_price.getD 0) o.order_type = true
  · cases hs : res.success <;>
      simp [processOrderRun, processOrder, h, hr, executeOrder, statusWrites, hs]
  · have hr' := Bool.eq_false_iff.mpr hr
    simp [processOrderRun, processOrder, h, hr', statusWrites]

lemma status_unchanged_when_not_reached (o : Order) (stock : StockData) (now : Nat)
    (res : ExecResult) (b : Rat) (h : o.base_price = some b)
    (hr : isPriceTargetReached stock.lp (o.target_price.getD 0) o.order_type = false) :
    (processOrderRun false o stock now res).1.trigger_status = o.trigger_status := by
  simp [processOrderRun, processOrder, h, hr]

lemma statusWrites_when_reached (o : Order) (stock : StockData) (now : Nat)
    (res : ExecResult) (b : Rat) (h : o.base_price = some b)
    (hr : isPriceTargetReached stock.lp (o.target_price.getD 0) o.order_type = true) :
    statusWrites (processOrderRun false o stock now res).2
      = TriggerStatus.TRIGGERED ::
          [if res.success then TriggerStatus.EXECUTED else TriggerStatus.EXECUTION_FAILED] := by
  cases hs : res.success <;>
    simp [processOrderRun, processOrder, h, hr, executeOrder, statusWrites, hs]

lemma no_monitoring_write_when_base_set (fault : Bool) (o : Order) (stock : StockData)
    (now : Nat) (res : ExecResult) (b : Rat) (h : o.base_price = some b) :
    TriggerStatus.MONITORING ∉ statusWrites (processOrderRun fault o stock now res).2 := by
  cases fault
  · by_cases hr : isPriceTargetReached stock.lp (o.target_price.getD 0) o.order_type = true
    · rw [statusWrites_when_reached o stock now res b h hr]
      cases hs : res.success <;> simp [hs]
    · have hr' := Bool.eq_false_iff.mpr hr
      simp [processOrderRun, processOrder, h, hr', statusWrites]
  · simp [processOrderRun, statusWrites]

lemma base_target_preserved (fault : Bool) (o : Order) (stock : StockData) (now : Nat)
    (res : ExecResult) (b : Rat) (h : o.base_price = some b) :
    (processOrderRun fault o stock now res).1.base_price = o.base_price
      ∧ (processOrderRun fault o stock now res).1.target_price = o.target_price := by
  cases fault
  · by_cases hr : isPriceTargetReached stock.lp (o.target_price.getD 0) o.order_type = true
    · cases hs : res.success <;>
        simp [processOrderRun, processOrder, h, hr, executeOrder, hs]
    · have hr' := Bool.eq_false_iff.mpr hr
      simp [processOrderRun, processOrder, h, hr']
  · simp [processOrderRun]

lemma base_target_set_at_first_eval (o : Order) (stock : StockData) (now : Nat)
    (res : ExecResult) (hb : o.base_price = none) (ht : o.target_price = none) :
    (processOrderRun false o stock now res).1.base_price = some stock.lp
      ∧ (processOrderRun false o stock now res).1.target_price
          = some (calculateTargetPrice stock.lp o.trigger_price_percent o.order_type)
      ∧ (processOrderRun false o stock now res).1.trigger_status
          = TriggerStatus.MONITORING := by
  simp [processOrderRun, processOrder, hb, ht]

lemma countExecCalls_run_le_one (fault : Bool) (o : Order) (stock : StockData)
    (now : Nat) (res : ExecResult) :
    countExecCalls (processOrderRun fault o stock now res).2 ≤ 1 := by
  cases fault
  · cases hb : o.base_price with
    | none =>
      cases ht : o.target_price <;>
        simp [processOrderRun, processOrder, hb, ht, countExecCalls]
    | some b =>
      by_cases hr : isPriceTargetReached stock.lp (o.target_price.getD 0) o.order_type = true
      · cases hs : res.success <;>
          simp [processOrderRun, processOrder, hb, hr, executeOrder, hs, countExecCalls]
      · have hr' := Bool.eq_false_iff.mpr hr
        simp [processOrderRun, processOrder, hb, hr', countExecCalls]
  · simp [processOrderRun, countExecCalls]

lemma run_status_cases (fault : Bool) (o : Order) (stock : StockData) (now : Nat)
    (res : ExecResult) :
    (processOrderRun fault o stock now res).1.trigger_status = o.trigger_status
      ∨ (processOrderRun fault o stock now res).1.trigger_status
          ∈ [TriggerStatus.FAILED, TriggerStatus.MONITORING, TriggerStatus.EXECUTED,
             TriggerStatus.EXECUTION_FAILED] := by
  cases fault
  · cases hb : o.base_price with
    | none =>
      cases ht : o.target_price <;>
        simp [processOrderRun, processOrder, hb, ht]
    | some b =>
      by_cases hr : isPriceTargetReached stock.lp (o.target_price.getD 0) o.order_type = true
      · cases hs : res.success <;>
          simp [processOrderRun, processOrder, hb, hr, executeOrder, hs]
      · have hr' := Bool.eq_false_iff.mpr hr
        simp [processOrderRun, processOrder, hb, hr']
  · simp [processOrderRun]

/-! ### Concrete sample data used by counterexamples and witnesses -/



/-- A monitored Buy order with base 100 and target 108 (8 percent). -/
def sampleOrder : Order :=
  { id := 1
    symbol := "GMLI"
    quantity := 1000
    order_type := "Buy"
    trigger_price_percent := 8
    is_trigger_order := true
    base_price := some 100
    target_price := some 108
    trigger_status := TriggerStatus.MONITORING
    last_checked_at := none
    triggered_at := none
    executed_at := none
    execution_price := none
    tms_order_id := none
    tms_status := none }

/-- A quote at the sample order's target price. -/
def sampleStock : StockData := ⟨"GMLI", 108, 2, 500⟩

/-- A quote below the sample order's base price. -/
def sampleLowStock : StockData := ⟨"GMLI", 99, 0, 1⟩

/-- A successful executor answer. -/
def sampleExec : ExecResult := ⟨true, "ord-1", "EXECUTED"⟩

/-! ### C2 -/

/-- C2: for an order with base price set, a Buy targets
base × (1 + pct/100) and its trigger fires on a tick iff the observed
price is at least the target; a Sell targets base × (1 − pct/100) and
fires iff the observed price is at most the target. -/
theorem c2_target_formula_and_trigger_condition
    (o : Order) (stock : StockData) (now : Nat) (res : ExecResult) (b t : Rat)
    (hb : o.base_price = some b) (ht : o.target_price = some t) :
    (o.order_type = "Buy" →
        calculateTargetPrice b o.trigger_price_percent o.order_type
            = b * (1 + o.trigger_price_percent / 100)
          ∧ (TriggerStatus.TRIGGERED ∈ statusWrites (processOrderRun false o stock now res).2
              ↔ stock.lp ≥ t))
      ∧ (o.order_type = "Sell" →
        calculateTargetPrice b o.trigger_price_percent o.order_type
            = b * (1 - o.trigger_price_percent / 100)
          ∧ (TriggerStatus.TRIGGERED ∈ statusWrites (processOrderRun false o stock now res).2
              ↔ stock.lp ≤ t)) := by
  constructor
  · intro hty
    refine ⟨by simp [calculateTargetPrice, hty], ?_⟩
    rw [triggered_write_iff o stock now res b hb]
    simp [isPriceTargetReached, hty, ht]
  · intro hty
    refine ⟨by simp [calculateTargetPrice, hty], ?_⟩
    rw [triggered_write_iff o stock now res b hb]
    simp [isPriceTargetReached, hty, ht]

/-- Witness for C2 at the sample Buy order and a quote at its target. -/
theorem c2_target_formula_and_trigger_condition_witness :
    TriggerStatus.TRIGGERED ∈ statusWrites (processOrderRun false sampleOrder sampleStock 7 sampleExec).2 := by
  have h := c2_target_formula_and_trigger_condition sampleOrder sampleStock 7 sampleExec
    100 108 rfl rfl
  exact (h.1 rfl).2.mpr (by norm_num [sampleStock])

/-! ### C6 -/

/-- An order form with trigger percent 0 and every other field valid. -/
def zeroPctForm : OrderForm := ⟨"GMLI", 1000, "Buy", 0, "u", "p", "21"⟩

/-- A monitored zero-percent Buy order whose base and target are both
100, as a first evaluation at price 100 would leave it. -/
def zeroPctOrder : Order :=
  { sampleOrder with
      trigger_price_percent := 0
      base_price := some 100
      target_price := some 100 }

/-- Counterexample to C6: the `orderFormSchema` validator rejects a
trigger percent of 0 (it requires a strictly positive percent), and a
zero-percent Buy order whose base and target are 100 is still MONITORING
after an evaluation that observed price 99 — the next evaluation with a
price observation need not reach Triggered. -/
theorem c6_counterexample :
    orderFormValid zeroPctForm = false
      ∧ (processOrderRun false zeroPctOrder sampleLowStock 8 sampleExec).1.trigger_status
          = TriggerStatus.MONITORING := by
  constructor
  · rfl
  · rfl

/-- C6 as amended: a trigger percent of 0 is rejected by the order-form
validator; for an order that nonetheless holds percent 0, the computed
target equals the base exactly, and the order reaches a TRIGGERED write
exactly on an evaluation whose observed price is at or above the base
(Buy), resp. at or below it (Sell) — not necessarily the same or next
evaluation. -/
theorem c6_zero_percent_semantics :
    (∀ f : OrderForm, f.trigger_price_percent = 0 → orderFormValid f = false)
      ∧ (∀ (b : Rat) (ty : String), calculateTargetPrice b 0 ty = b)
      ∧ (∀ (o : Order) (stock : StockData) (now : Nat) (res : ExecResult) (b : Rat),
          o.base_price = some b → o.target_price = some b →
            (o.order_type = "Buy" →
              (TriggerStatus.TRIGGERED
                  ∈ statusWrites (processOrderRun false o stock now res).2
                ↔ stock.lp ≥ b))
          ∧ (o.order_type = "Sell" →
              (TriggerStatus.TRIGGERED
                  ∈ statusWrites (processOrderRun false o stock now res).2
                ↔ stock.lp ≤ b))) := by
  refine ⟨?_, ?_, ?_⟩
  · intro f h
    simp [orderFormValid, h]
  · intro b ty
    unfold calculateTargetPrice
    split <;> ring
  · intro o stock now res b hb ht
    constructor
    · intro hty
      rw [triggered_write_iff o stock now res b hb]
      simp [isPriceTargetReached, hty, ht]
    · intro hty
      rw [triggered_write_iff o stock now res b hb]
      simp [isPriceTargetReached, hty, ht]

/-- Witness for C6's amended statement at the zero-percent form and a
zero-percent order observed exactly at its base price. -/
theorem c6_zero_percent_semantics_witness :
    orderFormValid zeroPctForm = false
      ∧ calculateTargetPrice 100 0 "Buy" = 100
      ∧ TriggerStatus.TRIGGERED
          ∈ statusWrites (processOrderRun false zeroPctOrder ⟨"GMLI", 100, 0, 1⟩ 8 sampleExec).2 := by
  have h := c6_zero_percent_semantics
  exact ⟨h.1 zeroPctForm rfl, h.2.1 100 "Buy",
    ((h.2.2 zeroPctOrder ⟨"GMLI", 100, 0, 1⟩ 8 sampleExec 100 rfl rfl).1 rfl).mpr le_rfl⟩

/-! ### C7 -/

/-- A valid 8-percent Buy form. -/
def presetForm : OrderForm := ⟨"GMLI", 1000, "Buy", 8, "u", "p", "21"⟩

/-- The row POST /api/trigger-orders stores for that form at price 2424. -/
def presetOrder : Order := createTriggerOrder presetForm 2424 1

/-- Whether an event writes the base or the target price. -/
def isBaseOrTargetWrite (e : Event) : Bool :=
  match e with
  | Event.dbBasePrice _ _ => true
  | Event.dbTargetPrice _ _ => true
  | _ => false

lemma no_base_target_write_when_base_set (fault : Bool) (o : Order) (stock : StockData)
    (now : Nat) (res : ExecResult) (b : Rat) (h : o.base_price = some b) :
    (processOrderRun fault o stock now res).2.filter isBaseOrTargetWrite = [] := by
  cases fault
  · by_cases hr : isPriceTargetReached stock.lp (o.target_price.getD 0) o.order_type = true
    · cases hs : res.success <;>
        simp [processOrderRun, processOrder, h, hr, executeOrder, hs, isBaseOrTargetWrite]
    · have hr' := Bool.eq_false_iff.mpr hr
      simp [processOrderRun, processOrder, h, hr', isBaseOrTargetWrite]
  · simp [processOrderRun, isBaseOrTargetWrite]

/-- Counterexample to C7: an order created through the trigger-order
endpoint already holds base and target before any evaluation, and its
first evaluation writes neither — so base and target are not set at the
first evaluation. -/
theorem c7_counterexample :
    presetOrder.base_price = some 2424
      ∧ presetOrder.target_price = some (65448 / 25)
      ∧ (processOrderRun false presetOrder sampleStock 7 sampleExec).2.filter
          isBaseOrTargetWrite = [] := by
  refine ⟨rfl, by norm_num [presetOrder, createTriggerOrder, presetForm], ?_⟩
  exact no_base_target_write_when_base_set false presetOrder sampleStock 7 sampleExec 2424 rfl

/-- C7 as amended: base and target prices are set together at most once —
by the trigger-order endpoint at creation, or by the first evaluation
that finds them unset — and once the base price is set, no operation
changes either value. -/
theorem c7_base_target_set_once :
    (∀ (f : OrderForm) (p : Rat) (i : Nat),
        (createTriggerOrder f p i).base_price = some p
      ∧ (createTriggerOrder f p i).target_price
          = some (calculateTargetPrice p f.trigger_price_percent f.order_type))
      ∧ (∀ (o : Order) (stock : StockData) (now : Nat) (res : ExecResult),
          o.base_price = none → o.target_price = none →
            (processOrderRun false o stock now res).1.base_price = some stock.lp
          ∧ (processOrderRun false o stock now res).1.target_price
              = some (calculateTargetPrice stock.lp o.trigger_price_percent o.order_type))
      ∧ (∀ (op : Op) (o : Order) (b : Rat), o.base_price = some b →
            (applyOp op o).base_price = some b
          ∧ (applyOp op o).target_price = o.target_price) := by
  refine ⟨?_, ?_, ?_⟩
  · intro f p i
    exact ⟨rfl, rfl⟩
  · intro o stock now res hb ht
    have h := base_target_set_at_first_eval o stock now res hb ht
    exact ⟨h.1, h.2.1⟩
  · intro op o b hb
    cases op with
    | tick stock now fault res =>
      by_cases hm : isMonitoredOrder o = true
      · have h := base_target_preserved fault o stock now res b hb
        simpa [applyOp, hm, hb] using h
      · have hm' := Bool.eq_false_iff.mpr hm
        simp [applyOp, hm', hb]
    | tickNoQuote => simp [applyOp, hb]
    | cancel =>
      simp only [applyOp, cancelTriggerOrder]
      by_cases hg : (o.is_trigger_order && isActiveStatus o.trigger_status) = true
      · simp [hg, hb]
      · have hg' := Bool.eq_false_iff.mpr hg
        simp [hg', hb]

/-- Witness for C7's amended statement at the preset form and a fresh
unset order. -/
theorem c7_base_target_set_once_witness :
    presetOrder.base_price = some 2424
      ∧ (applyOp Op.cancel presetOrder).base_price = some 2424 := by
  have h := c7_base_target_set_once
  exact ⟨(h.1 presetForm 2424 1).1, (h.2.2 Op.cancel presetOrder 2424 (h.1 presetForm 2424 1).1).1⟩

/-! ### C9 -/

/-- C9: the trigger-order endpoint stores the row with base and target
already set and status PENDING; an order whose base price is set never
receives a MONITORING write from the monitor (that write lives only in
the base-unset branch), keeps its status on a non-firing evaluation, and
its first status write on a firing evaluation is TRIGGERED. -/
theorem c9_endpoint_orders_skip_monitoring :
    (∀ (f : OrderForm) (p : Rat) (i : Nat),
        (createTriggerOrder f p i).trigger_status = TriggerStatus.PENDING
      ∧ (createTriggerOrder f p i).base_price = some p)
      ∧ (∀ (fault : Bool) (o : Order) (stock : StockData) (now : Nat) (res : ExecResult)
          (b : Rat), o.base_price = some b →
            TriggerStatus.MONITORING ∉ statusWrites (processOrderRun fault o stock now res).2)
      ∧ (∀ (o : Order) (stock : StockData) (now : Nat) (res : ExecResult) (b : Rat),
          o.base_price = some b →
          isPriceTargetReached stock.lp (o.target_price.getD 0) o.order_type = false →
            (processOrderRun false o stock now res).1.trigger_status = o.trigger_status)
      ∧ (∀ (o : Order) (stock : StockData) (now : Nat) (res : ExecResult) (b : Rat),
          o.base_price = some b →
          isPriceTargetReached stock.lp (o.target_price.getD 0) o.order_type = true →
            statusWrites (processOrderRun false o stock now res).2
              = TriggerStatus.TRIGGERED ::
                  [if res.success then TriggerStatus.EXECUTED
                   else TriggerStatus.EXECUTION_FAILED]) := by
  refine ⟨?_, ?_, ?_, ?_⟩
  · intro f p i
    exact ⟨rfl, rfl⟩
  · intro fault o stock now res b hb
    exact no_monitoring_write_when_base_set fault o stock now res b hb
  · intro o stock now res b hb hr
    exact status_unchanged_when_not_reached o stock now res b hb hr
  · intro o stock now res b hb hr
    exact statusWrites_when_reached o stock now res b hb hr

/-- Witness for C9 at the preset endpoint order: created PENDING with
base set, and an evaluation at a non-firing price leaves it PENDING with
no MONITORING write. -/
theorem c9_endpoint_orders_skip_monitoring_witness :
    presetOrder.trigger_status = TriggerStatus.PENDING
      ∧ TriggerStatus.MONITORING
          ∉ statusWrites (processOrderRun false presetOrder sampleStock 7 sampleExec).2
      ∧ (processOrderRun false presetOrder sampleStock 7 sampleExec).1.trigger_status
          = TriggerStatus.PENDING := by
  have h := c9_endpoint_orders_skip_monitoring
  have hr : isPriceTargetReached sampleStock.lp (presetOrder.target_price.getD 0)
      presetOrder.order_type = false := by
    norm_num [isPriceTargetReached, presetOrder, createTriggerOrder, presetForm, sampleStock]
  refine ⟨(h.1 presetForm 2424 1).1, ?_, ?_⟩
  · exact h.2.1 false presetOrder sampleStock 7 sampleExec 2424 rfl
  · exact h.2.2.1 presetOrder sampleStock 7 sampleExec 2424 rfl hr

/-! ### C3 -/

lemma statusLe_refl (s : TriggerStatus) : statusLe s s = true := by
  simp [statusLe]

lemma statusLe_of_active (s r : TriggerStatus) (hs : isActiveStatus s = true)
    (hr : r ∈ [TriggerStatus.FAILED, TriggerStatus.MONITORING, TriggerStatus.EXECUTED,
               TriggerStatus.EXECUTION_FAILED]) : statusLe s r = true := by
  have h4 : r = TriggerStatus.FAILED ∨ r = TriggerStatus.MONITORING
      ∨ r = TriggerStatus.EXECUTED ∨ r = TriggerStatus.EXECUTION_FAILED := by
    simpa using hr
  revert hs
  rcases h4 with rfl | rfl | rfl | rfl <;> cases s <;> decide

lemma terminal_not_active (s : TriggerStatus) (h : isTerminalStatus s = true) :
    isActiveStatus s = false := by
  revert h; cases s <;> decide

/-- Counterexample to C3: a cancellation that lands between a tick's
enumeration read and its evaluation leaves the stored row CANCELLED, yet
the tick then replays TRIGGERED and EXECUTED writes over it — a terminal
status is followed by further status writes. -/
theorem c3_counterexample :
    (runSchedule sampleStock 7 sampleExec (initSys sampleOrder)
        [SysAction.read1, SysAction.cancelReq, SysAction.eval1]).statusLog
      = [TriggerStatus.CANCELLED, TriggerStatus.TRIGGERED, TriggerStatus.EXECUTED]
      ∧ isTerminalStatus TriggerStatus.CANCELLED = true := by
  exact ⟨rfl, rfl⟩

/-- C3 as amended: every operation that reads the order's current state
before acting — a tick evaluation (gated by the monitor's enumeration
filter), a quote-less tick, or the cancel endpoint — moves the status
forward in lifecycle order and leaves terminal orders untouched; only a
tick interleaved with a cancellation, replaying writes taken from a
pre-cancellation snapshot, can follow a terminal status with another
write. -/
theorem c3_sequential_status_monotonicity (op : Op) (o : Order) :
    statusLe o.trigger_status (applyOp op o).trigger_status = true
      ∧ (isTerminalStatus o.trigger_status = true → applyOp op o = o) := by
  cases op with
  | tick stock now fault res =>
    by_cases hm : isMonitoredOrder o = true
    · have hact : isActiveStatus o.trigger_status = true := by
        have h := hm
        simp [isMonitoredOrder, Bool.and_eq_true] at h
        exact h.2
      constructor
      · simp only [applyOp, hm, if_true]
        rcases run_status_cases fault o stock now res with hsame | hmem
        · rw [hsame]; exact statusLe_refl _
        · exact statusLe_of_active _ _ hact (by simpa using hmem)
      · intro hterm
        have hcontra := terminal_not_active _ hterm
        rw [hact] at hcontra
        cases hcontra
    · have hm' := Bool.eq_false_iff.mpr hm
      exact ⟨by simp [applyOp, hm', statusLe_refl], fun _ => by simp [applyOp, hm']⟩
  | tickNoQuote =>
    exact ⟨statusLe_refl _, fun _ => rfl⟩
  | cancel =>
    by_cases hb : (o.is_trigger_order && isActiveStatus o.trigger_status) = true
    · cases ho : o.trigger_status <;>
        simp_all [applyOp, cancelTriggerOrder, isActiveStatus, isTerminalStatus, statusLe]
    · have hb' := Bool.eq_false_iff.mpr hb
      exact ⟨by simp [applyOp, cancelTriggerOrder, hb', statusLe_refl],
             fun _ => by simp [applyOp, cancelTriggerOrder, hb']⟩

/-- An already executed copy of the sample order. -/
def executedOrder : Order := { sampleOrder with trigger_status := TriggerStatus.EXECUTED }

/-- Witness for C3's amended statement: a cancel request leaves an
EXECUTED order untouched. -/
theorem c3_sequential_status_monotonicity_witness :
    applyOp Op.cancel executedOrder = executedOrder := by
  have h := c3_sequential_status_monotonicity Op.cancel executedOrder
  exact h.2 rfl

/-! ### C1 -/

/-- Counterexample to C1: `start` fires `monitorOrders` from
`setInterval` without awaiting the previous run, so a second tick may
perform its enumeration read while the first is suspended; both ticks
then see the sample order as MONITORING with its target reached, and the
executor is invoked twice for the same order. -/
theorem c1_counterexample :
    (runSchedule sampleStock 7 sampleExec (initSys sampleOrder)
        [SysAction.read1, SysAction.read2, SysAction.eval1, SysAction.eval2]).execCalls
      = 2 := by
  rfl

lemma active_replay_no_exec (d : Order) (stock : StockData) (now : Nat)
    (res : ExecResult)
    (h : isActiveStatus ((processOrderRun false d stock now res).2.foldl applyDbEvent
          d).trigger_status = true) :
    countExecCalls (processOrderRun false d stock now res).2 = 0 := by
  cases hb : d.base_price with
  | none =>
    cases ht : d.target_price <;>
      simp [processOrderRun, processOrder, hb, ht, countExecCalls]
  | some b =>
    by_cases hr : isPriceTargetReached stock.lp (d.target_price.getD 0) d.order_type = true
    · exfalso
      cases hs : res.success <;>
        simp [processOrderRun, processOrder, hb, hr, executeOrder, hs, applyDbEvent,
          isActiveStatus] at h
    · have hr' := Bool.eq_false_iff.mpr hr
      simp [processOrderRun, processOrder, hb, hr', countExecCalls]

/-- C1 as amended: within one evaluation of an order the executor is
invoked at most once, and two ticks serialized behind each other's
completion invoke it at most once in total (the second tick's
enumeration read sees the first tick's terminal status write); the
at-most-once guarantee does not extend to overlapping ticks, which the
interval scheduler permits. -/
theorem c1_at_most_once_per_tick :
    (∀ (fault : Bool) (o : Order) (stock : StockData) (now : Nat) (res : ExecResult),
        countExecCalls (processOrderRun fault o stock now res).2 ≤ 1)
      ∧ (∀ (o : Order) (stock : StockData) (now : Nat) (res : ExecResult),
        (runSchedule stock now res (initSys o)
            [SysAction.read1, SysAction.eval1, SysAction.read2, SysAction.eval2]).execCalls
          ≤ 1) := by
  constructor
  · intro fault o stock now res
    exact countExecCalls_run_le_one fault o stock now res
  · intro o stock now res
    by_cases hm : isMonitoredOrder o = true
    · have s1def : sysStep stock now res (initSys o) SysAction.read1
          = { initSys o with t1 := TickPhase.snapped o } := by
        simp [sysStep, initSys, hm]
      have s2def : sysStep stock now res { initSys o with t1 := TickPhase.snapped o }
            SysAction.eval1
          = { dbOrder := (processOrderRun false o stock now res).2.foldl applyDbEvent o
              execCalls := countExecCalls (processOrderRun false o stock now res).2
              statusLog := statusWrites (processOrderRun false o stock now res).2
              t1 := TickPhase.finished
              t2 := TickPhase.idle } := by
        simp [sysStep, finishTick, initSys]
      set d2 : Order := (processOrderRun false o stock now res).2.foldl applyDbEvent o
        with hd2
      set c1 : Nat := countExecCalls (processOrderRun false o stock now res).2 with hc1
      simp only [runSchedule, List.foldl_cons, List.foldl_nil, s1def, s2def]
      by_cases hm2 : isMonitoredOrder d2 = true
      · have hact2 : isActiveStatus d2.trigger_status = true := by
          have h := hm2
          simp [isMonitoredOrder, Bool.and_eq_true] at h
          exact h.2
        have hzero : c1 = 0 := by
          rw [hc1]
          exact active_replay_no_exec o stock now res (hd2 ▸ hact2)
        simp only [sysStep, hm2, if_true]
        simp only [finishTick, hzero]
        have := countExecCalls_run_le_one false d2 stock now res
        simpa using this
      · have hm2' := Bool.eq_false_iff.mpr hm2
        simp only [sysStep, hm2']
        simp [hc1]
        exact countExecCalls_run_le_one false o stock now res
    · have hm' := Bool.eq_false_iff.mpr hm
      simp [runSchedule, sysStep, initSys, hm']

/-! ### C8 -/

/-- What one loop iteration of `monitorOrders` does to a single order
(skip without a quote, evaluate otherwise), viewed in isolation. -/
def evalOneOrder (market : List StockData) (now : Nat) (fault : Nat → Bool)
    (execRes : Nat → ExecResult) (o : Order) : Order :=
  match findStockData market o.symbol with
  | none => o
  | some sd => (processOrderRun (fault o.id) o sd now (execRes o.id)).1

/-- The events one loop iteration of `monitorOrders` emits for a single
order, viewed in isolation. -/
def evalOneEvents (market : List StockData) (now : Nat) (fault : Nat → Bool)
    (execRes : Nat → ExecResult) (o : Order) : List Event :=
  match findStockData market o.symbol with
  | none => []
  | some sd => (processOrderRun (fault o.id) o sd now (execRes o.id)).2

lemma runOrdersLoop_eq (pending : List Order) (market : List StockData) (now : Nat)
    (fault : Nat → Bool) (execRes : Nat → ExecResult) :
    runOrdersLoop pending market now fault execRes
      = (pending.map (evalOneOrder market now fault execRes),
         pending.flatMap (evalOneEvents market now fault execRes)) := by
  induction pending with
  | nil => simp [runOrdersLoop]
  | cons o rest ih =>
    cases hf : findStockData market o.symbol <;>
      simp [runOrdersLoop, hf, evalOneOrder, evalOneEvents, ih]

/-- C8: the tick's loop treats every order independently — its outcome
is a per-order function of that order and the market data alone, so no
order's fault can abort the remaining evaluations — and a faulted order
is written FAILED with the failure broadcast to its subscribers. -/
theorem c8_per_order_fault_containment :
    (∀ (pending : List Order) (market : List StockData) (now : Nat)
        (fault : Nat → Bool) (execRes : Nat → ExecResult),
        (runOrdersLoop pending market now fault execRes).1
            = pending.map (evalOneOrder market now fault execRes)
      ∧ (runOrdersLoop pending market now fault execRes).2
            = pending.flatMap (evalOneEvents market now fault execRes))
      ∧ (∀ (pending : List Order) (market : List StockData) (now : Nat)
          (fault : Nat → Bool) (execRes : Nat → ExecResult) (o : Order) (sd : StockData),
          o ∈ pending → fault o.id = true → findStockData market o.symbol = some sd →
            (evalOneOrder market now fault execRes o).trigger_status = TriggerStatus.FAILED
          ∧ Event.wsOrderUpdate o.id TriggerStatus.FAILED
              ∈ (runOrdersLoop pending market now fault execRes).2) := by
  constructor
  · intro pending market now fault execRes
    rw [runOrdersLoop_eq]
    exact ⟨rfl, rfl⟩
  · intro pending market now fault execRes o sd ho hfault hsd
    constructor
    · simp [evalOneOrder, hsd, processOrderRun, hfault]
    · rw [runOrdersLoop_eq]
      refine List.mem_flatMap.mpr ⟨o, ho, ?_⟩
      simp [evalOneEvents, hsd, processOrderRun, hfault]

/-- Witness for C8: a one-order tick whose evaluation faults writes
FAILED and broadcasts the failure. -/
theorem c8_per_order_fault_containment_witness :
    (evalOneOrder [sampleStock] 7 (fun _ => true) (fun _ => sampleExec)
        sampleOrder).trigger_status = TriggerStatus.FAILED
      ∧ Event.wsOrderUpdate sampleOrder.id TriggerStatus.FAILED
          ∈ (runOrdersLoop [sampleOrder] [sampleStock] 7 (fun _ => true)
              (fun _ => sampleExec)).2 := by
  have hfind : findStockData [sampleStock] sampleOrder.symbol = some sampleStock := by
    simp only [findStockData, List.find?]
    rw [decide_eq_true (show sampleStock.s.toUpper = sampleOrder.symbol.toUpper from rfl)]
  have h := c8_per_order_fault_containment
  exact h.2 [sampleOrder] [sampleStock] 7 (fun _ => true) (fun _ => sampleExec)
    sampleOrder sampleStock (by simp) rfl hfind

/-! ### C4 -/

/-- A quote cached on an earlier tick. -/
def cachedQuote : StockData := ⟨"GMLI", 2424, 1, 500⟩

/-- A market-data state whose cache holds the earlier quote and whose
last fetch is old enough that a fresh fetch is attempted. -/
def marketSample : MarketState := ⟨[("GMLI", cachedQuote)], 0, 5000⟩

/-- Counterexample to C4: with a cached quote at 2424 available, a fetch
that fails every retry returns a fabricated mock quote at price 1000 —
not the quotes the cache already holds. -/
theorem c4_counterexample :
    (fetchLatestData marketSample 10000 ["GMLI"] FetchOutcome.netFail).2
        = [⟨"GMLI", 1000, 0, 1000⟩]
      ∧ getStocksFromCache marketSample.cache ["GMLI"] = [cachedQuote]
      ∧ (fetchLatestData marketSample 10000 ["GMLI"] FetchOutcome.netFail).2
          ≠ getStocksFromCache marketSample.cache ["GMLI"] := by
  refine ⟨rfl, rfl, ?_⟩
  decide

/-- C4 as amended: when the fetch fails every retry (and the rate
limiter did not short-circuit), the retry revision of `fetchLatestData`
returns — never throws — a mock quote (price 1000, change 0, volume
1000) for each requested symbol, leaving the cache untouched; the
non-retry revision falls back to the cached quotes; and the monitor
still finds a quote for every requested symbol in the mock answer, so
orders are evaluated rather than skipped. -/
theorem c4_feed_failure_fallback (st : MarketState) (now : Nat)
    (symbols : List String) (hne : symbols ≠ [])
    (hstale : st.fetchInterval ≤ now - st.lastFetchTime) :
    (fetchLatestData st now symbols FetchOutcome.netFail).2
        = symbols.map (fun sym => ⟨sym, 1000, 0, 1000⟩)
      ∧ (fetchLatestData st now symbols FetchOutcome.netFail).1 = st
      ∧ (fetchLatestDataCacheFallback st now symbols FetchOutcome.netFail).2
          = getStocksFromCache st.cache symbols
      ∧ ∀ sym ∈ symbols,
          (findStockData (fetchLatestData st now symbols FetchOutcome.netFail).2
              sym).isSome = true := by
  have hguard : ¬(now - st.lastFetchTime < st.fetchInterval) := not_lt.mpr hstale
  refine ⟨by simp [fetchLatestData, hne, hguard], by simp [fetchLatestData, hne, hguard],
    by simp [fetchLatestDataCacheFallback, hguard], ?_⟩
  intro sym hsym
  have h2 : (fetchLatestData st now symbols FetchOutcome.netFail).2
      = symbols.map (fun s => ⟨s, 1000, 0, 1000⟩) := by
    simp [fetchLatestData, hne, hguard]
  rw [h2, findStockData, List.find?_isSome]
  exact ⟨⟨sym, 1000, 0, 1000⟩, List.mem_map.mpr ⟨sym, hsym, rfl⟩, decide_eq_true rfl⟩

/-- Witness for C4's amended statement at the sample market state. -/
theorem c4_feed_failure_fallback_witness :
    (fetchLatestData marketSample 10000 ["GMLI"] FetchOutcome.netFail).2
        = [⟨"GMLI", 1000, 0, 1000⟩]
      ∧ (fetchLatestDataCacheFallback marketSample 10000 ["GMLI"] FetchOutcome.netFail).2
          = getStocksFromCache marketSample.cache ["GMLI"] := by
  have h := c4_feed_failure_fallback marketSample 10000 ["GMLI"] (by simp)
    (by norm_num [marketSample])
  exact ⟨h.1, h.2.2.1⟩

/-! ### C5 -/

/-- A registry with one observer subscribed to the symbol GMLI and
nobody subscribed to any order. -/
def wsSymbolOnly : WSState := ⟨[(7, ["symbol:GMLI"])], [("GMLI", [7])], []⟩

/-- Counterexample to C5: when the order has no subscribers,
`broadcastTriggerNotification` returns before the symbol fan-out, so an
observer subscribed only to the order's symbol receives nothing. -/
theorem c5_counterexample :
    broadcastTriggerNotification wsSymbolOnly (fun _ => true) sampleOrder 108 = []
      ∧ alGet wsSymbolOnly.symbolSubscribers sampleOrder.symbol = some [7] := by
  exact ⟨rfl, rfl⟩

/-- C5 as amended: when the order-topic registry has an entry for the
order, the trigger notification reaches every open subscriber of the
order and every open subscriber of the order's symbol; when the order
has no entry, nobody — symbol subscribers included — receives it. -/
theorem c5_trigger_notification_delivery (st : WSState) (isOpen : Nat → Bool)
    (o : Order) (p : Rat) :
    (alGet st.orderSubscribers o.id = none →
        broadcastTriggerNotification st isOpen o p = [])
      ∧ (∀ subs, alGet st.orderSubscribers o.id = some subs →
          (∀ ws ∈ subs, isOpen ws = true →
            (ws, triggerNotificationPayload o p)
              ∈ broadcastTriggerNotification st isOpen o p)
        ∧ (∀ symSubs, alGet st.symbolSubscribers o.symbol = some symSubs →
            ∀ ws ∈ symSubs, isOpen ws = true →
              (ws, triggerNotificationPayload o p)
                ∈ broadcastTriggerNotification st isOpen o p)) := by
  constructor
  · intro h
    simp [broadcastTriggerNotification, h]
  · intro subs hsubs
    constructor
    · intro ws hws hopen
      simp only [broadcastTriggerNotification, hsubs]
      refine List.mem_append.mpr (Or.inl ?_)
      exact List.mem_map.mpr ⟨ws, List.mem_filter.mpr ⟨hws, hopen⟩, rfl⟩
    · intro symSubs hsym ws hws hopen
      simp only [broadcastTriggerNotification, hsubs, hsym]
      refine List.mem_append.mpr (Or.inr ?_)
      exact List.mem_map.mpr ⟨ws, List.mem_filter.mpr ⟨hws, hopen⟩, rfl⟩

/-- A registry with observer 5 on the order topic and observer 7 on the
symbol topic. -/
def wsBoth : WSState :=
  ⟨[(5, ["order:1"]), (7, ["symbol:GMLI"])], [("GMLI", [7])], [(1, [5])]⟩

/-- Witness for C5's amended statement: with an order subscriber
present, both the order subscriber and the symbol subscriber receive
the notification. -/
theorem c5_trigger_notification_delivery_witness :
    (5, triggerNotificationPayload sampleOrder 108)
        ∈ broadcastTriggerNotification wsBoth (fun _ => true) sampleOrder 108
      ∧ (7, triggerNotificationPayload sampleOrder 108)
        ∈ broadcastTriggerNotification wsBoth (fun _ => true) sampleOrder 108 := by
  have h := c5_trigger_notification_delivery wsBoth (fun _ => true) sampleOrder 108
  have h2 := h.2 [5] rfl
  exact ⟨(h2.1 5 (by simp) rfl), h2.2 [7] rfl 7 (by simp) rfl⟩

/-! ### C10 -/

lemma alGet_alSet_self {α β : Type} [DecidableEq α] (m : List (α × β)) (k : α) (v : β) :
    alGet (alSet m k v) k = some v := by
  induction m with
  | nil => simp [alSet, alGet]
  | cons kv rest ih =>
    obtain ⟨k', v'⟩ := kv
    by_cases h : k' = k
    · simp [alSet, alGet, h]
    · simp [alSet, alGet, h, ih]

lemma alSet_alSet_self {α β : Type} [DecidableEq α] (m : List (α × β)) (k : α)
    (v w : β) : alSet (alSet m k v) k w = alSet m k w := by
  induction m with
  | nil => simp [alSet]
  | cons kv rest ih =>
    obtain ⟨k', v'⟩ := kv
    by_cases h : k' = k
    · simp [alSet, h]
    · simp [alSet, h, ih]

lemma setAdd_mem {α : Type} [DecidableEq α] (s : List α) (a : α) : a ∈ setAdd s a := by
  unfold setAdd
  split
  · assumption
  · simp

lemma setAdd_of_mem {α : Type} [DecidableEq α] {s : List α} {a : α} (h : a ∈ s) :
    setAdd s a = s := by
  simp [setAdd, h]

lemma setAdd_setAdd {α : Type} [DecidableEq α] (s : List α) (a : α) :
    setAdd (setAdd s a) a = setAdd s a :=
  setAdd_of_mem (setAdd_mem s a)

lemma setAdd_nodup {α : Type} [DecidableEq α] {s : List α} (h : s.Nodup) (a : α) :
    (setAdd s a).Nodup := by
  unfold setAdd
  split
  · exact h
  · next hmem => simpa using List.Nodup.append h (by simp) (by simpa using hmem)

lemma setAdd_count_one {α : Type} [DecidableEq α] {s : List α} (h : s.Nodup) (a : α) :
    (setAdd s a).count a = 1 := by
  unfold setAdd
  split
  · next hmem => exact List.count_eq_one_of_mem h hmem
  · next hmem =>
    rw [List.count_append]
    rw [List.count_eq_zero_of_not_mem hmem]
    simp

/-- C10: subscribing the same observer to the same symbol or order topic
twice leaves the registry exactly as one subscription does; a topic's
subscriber set holds the observer exactly once; and a broadcast to a
duplicate-free subscriber set delivers to each distinct observer at most
once. -/
theorem c10_subscription_idempotent_single_delivery :
    (∀ (st : WSState) (ws : Nat) (symbol : String),
        handleSymbolSubscription (handleSymbolSubscription st ws symbol) ws symbol
          = handleSymbolSubscription st ws symbol)
      ∧ (∀ (st : WSState) (ws : Nat) (orderId : Nat),
        handleOrderSubscription (handleOrderSubscription st ws orderId) ws orderId
          = handleOrderSubscription st ws orderId)
      ∧ (∀ (st : WSState) (ws : Nat) (symbol : String), symbol ≠ "" →
          ((alGet st.symbolSubscribers symbol).getD []).Nodup →
          ((alGet (handleSymbolSubscription st ws symbol).symbolSubscribers
              symbol).getD []).count ws = 1)
      ∧ (∀ (isOpen : Nat → Bool) (clients : List Nat) (msg : TriggerPayload),
          clients.Nodup → ((broadcast isOpen clients msg).map Prod.fst).Nodup) := by
  refine ⟨?_, ?_, ?_, ?_⟩
  · intro st ws symbol
    by_cases hs : symbol = ""
    · simp [handleSymbolSubscription, hs]
    · obtain ⟨C, S, O⟩ := st
      simp [handleSymbolSubscription, hs, alGet_alSet_self, alSet_alSet_self,
        setAdd_setAdd]
  · intro st ws orderId
    by_cases hz : orderId = 0
    · simp [handleOrderSubscription, hz]
    · obtain ⟨C, S, O⟩ := st
      simp [handleOrderSubscription, hz, alGet_alSet_self, alSet_alSet_self,
        setAdd_setAdd]
  · intro st ws symbol hs hnd
    simp only [handleSymbolSubscription, if_neg hs]
    rw [alGet_alSet_self]
    simpa using setAdd_count_one hnd ws
  · intro isOpen clients msg hnd
    have : (broadcast isOpen clients msg).map Prod.fst = clients.filter isOpen := by
      simp [broadcast, List.map_map, Function.comp_def]
    rw [this]
    exact List.Nodup.filter _ hnd

/-- Witness for C10 at an empty registry: after subscribing observer 7
to GMLI, the topic holds it exactly once. -/
theorem c10_subscription_idempotent_single_delivery_witness :
    ((alGet (handleSymbolSubscription ⟨[], [], []⟩ 7 "GMLI").symbolSubscribers
        "GMLI").getD []).count 7 = 1 := by
  have h := c10_subscription_idempotent_single_delivery
  exact h.2.2.1 ⟨[], [], []⟩ 7 "GMLI" (by simp) (by simp [alGet])

end NepseBot
